import Mathlib

/-!
Verification development for the swimset core: the shorthand interpreter
(`src/backend/src/core/dsl/interpreter.ts`), the time codec
(`parseTime.ts`), and the constraint-driven generator
(`src/backend/src/core/generator/generator.ts`).

Strings are modelled as lists of characters, JS numbers as `Nat`/`Int`
where the source only ever produces integers, and as `ℚ` where the source
performs real division (duration estimates, scale factors, `Math.round`).
-/

attribute [local semireducible] Rat.add Rat.mul Rat.inv Rat.sub

namespace Swimset

/-! ## Character and string utilities (JS semantics, ASCII model) -/

/-- Whitespace characters recognised by JS `trim` and the regex class of
whitespace, restricted to the ASCII range that the sources can produce. -/
def isSpaceChar (c : Char) : Bool :=
  c.toNat = 32 || c.toNat = 9 || c.toNat = 10 || c.toNat = 13 ||
    c.toNat = 11 || c.toNat = 12

def isDigitChar (c : Char) : Bool :=
  48 ≤ c.toNat && c.toNat ≤ 57

def digitVal (c : Char) : Nat := c.toNat - 48

/-- Value of a digit string, as computed by `Number.parseInt` on an
all-digit input (exact, with no float overflow model). -/
def natOfDigits (cs : List Char) : Nat :=
  cs.foldl (fun acc c => 10 * acc + digitVal c) 0

/-- JS `String.prototype.trim`. -/
def jsTrim (cs : List Char) : List Char :=
  ((cs.dropWhile isSpaceChar).reverse.dropWhile isSpaceChar).reverse

def toLowerChar (c : Char) : Char :=
  if 'A' ≤ c && c ≤ 'Z' then Char.ofNat (c.toNat + 32) else c

/-- JS `String.prototype.toLowerCase` (ASCII model). -/
def jsToLower (cs : List Char) : List Char := cs.map toLowerChar

/-- JS `String.prototype.split` with a single-character separator. -/
def splitOnChar (sep : Char) : List Char → List (List Char)
  | [] => [[]]
  | c :: rest =>
    let r := splitOnChar sep rest
    if c = sep then [] :: r
    else
      match r with
      | h :: t => (c :: h) :: t
      | [] => [[c]]

/-- JS `Number.parseInt(s, 10)`: skip leading whitespace, read an optional
sign, then the longest run of decimal digits; no digits means NaN,
modelled as `none`. -/
def jsParseInt (cs : List Char) : Option Int :=
  let t := cs.dropWhile isSpaceChar
  let sign : Int := if t.head? = some '-' then -1 else 1
  let rest := if t.head? = some '+' ∨ t.head? = some '-' then t.drop 1 else t
  let ds := rest.takeWhile isDigitChar
  if ds.isEmpty then none else some (sign * (natOfDigits ds : Int))

/-- Maximal non-whitespace tokens of a string, as produced by
`split(/\s+/)` on a trimmed input. -/
def wsTokensAux : List Char → List Char → List (List Char)
  | [], cur => if cur.isEmpty then [] else [cur.reverse]
  | c :: rest, cur =>
    if isSpaceChar c then
      if cur.isEmpty then wsTokensAux rest [] else cur.reverse :: wsTokensAux rest []
    else wsTokensAux rest (c :: cur)

def wsTokens (cs : List Char) : List (List Char) := wsTokensAux cs []

/-- JS `Array.prototype.join(' ')`. -/
def joinSpace : List (List Char) → List Char
  | [] => []
  | [t] => t
  | t :: u :: rest => t ++ ' ' :: joinSpace (u :: rest)

/-- First maximal digit run of a string, as matched by the unanchored
regex `/(\d+)/`. -/
def firstDigitRun : List Char → Option (List Char)
  | [] => none
  | c :: rest =>
    if isDigitChar c then some (c :: rest.takeWhile isDigitChar)
    else firstDigitRun rest

/-- Character of a decimal digit value. -/
def digitChar (d : Nat) : Char := Char.ofNat (d + 48)

/-- Fuel-driven decimal rendering (structural, so that the kernel can
evaluate it); `showNatL n` is the JS decimal string of the number `n`. -/
def showNatAux : Nat → Nat → List Char → List Char
  | 0, _, acc => acc
  | fuel + 1, n, acc =>
    let d := digitChar (n % 10)
    if n / 10 = 0 then d :: acc
    else showNatAux fuel (n / 10) (d :: acc)

def showNatL (n : Nat) : List Char := showNatAux (n + 1) n []

def showNat (n : Nat) : String := String.mk (showNatL n)

/-- Reference decimal rendering by well-founded recursion, used only in
proofs about `showNatL`. -/
def natDigits (n : Nat) : List Char :=
  if n < 10 then [digitChar n]
  else natDigits (n / 10) ++ [digitChar (n % 10)]
  decreasing_by exact Nat.div_lt_self (by omega) (by omega)

/-- JS `String.prototype.padStart(2, '0')`. -/
def pad2 (cs : List Char) : List Char :=
  if cs.length < 2 then List.replicate (2 - cs.length) '0' ++ cs else cs

/-- JS `Math.round`: round half toward positive infinity. -/
def jsRound (q : ℚ) : ℤ := ⌊q + 1 / 2⌋

/-- JS `Number.prototype.toFixed(1)`: negate first when negative, then
round the tenths digit half up. -/
def toFixed1 (q : ℚ) : String :=
  if q < 0 then
    String.mk ('-' :: showNatL ((jsRound (-q * 10)).toNat / 10) ++ '.' ::
      showNatL ((jsRound (-q * 10)).toNat % 10))
  else
    String.mk (showNatL ((jsRound (q * 10)).toNat / 10) ++ '.' ::
      showNatL ((jsRound (q * 10)).toNat % 10))

/-! ## Time codec (`parseTime.ts`) -/

/-- Embedding of `parseTimeToSeconds` from `parseTime.ts`, acting on a
character list. Either `minutes:seconds` (both components read with
`parseInt`, seconds 0–59, minutes nonnegative) or a bare nonnegative
`parseInt` result; anything else gives `none`. -/
def parseTimeToSecondsL (cs : List Char) : Option Nat :=
  if cs.isEmpty then none
  else
    let trimmed := jsTrim cs
    if trimmed.isEmpty then none
    else if trimmed.contains ':' then
      match splitOnChar ':' trimmed with
      | [minutesPart, secondsPart] =>
        match jsParseInt minutesPart, jsParseInt secondsPart with
        | some minutes, some seconds =>
          if minutes < 0 ∨ seconds < 0 ∨ 60 ≤ seconds then none
          else some (minutes * 60 + seconds).toNat
        | _, _ => none
      | _ => none
    else
      match jsParseInt trimmed with
      | some n => if n < 0 then none else some n.toNat
      | none => none

def parseTimeToSeconds (s : String) : Option Nat :=
  parseTimeToSecondsL s.toList

/-- Embedding of `formatSecondsAsTime`: round to the nearest whole
second, then emit `minutes:seconds` with the seconds zero-padded to two
digits; negative input gives `none`. -/
def formatSecondsAsTime (totalSeconds : ℚ) : Option String :=
  if totalSeconds < 0 then none
  else
    let wholeSeconds := (jsRound totalSeconds).toNat
    some (String.mk (showNatL (wholeSeconds / 60) ++ ':' ::
      pad2 (showNatL (wholeSeconds % 60))))

/-! ## Data model (`WorkoutTypes.ts`) -/

structure WorkoutHeader where
  poolLengthMeters : Option Nat
  plannedDurationMinutes : Option Nat
  title : Option String
  focus : Option String
  profile : Option String
deriving DecidableEq

def emptyHeader : WorkoutHeader := ⟨none, none, none, none, none⟩

structure ParseError where
  lineNumber : Nat
  message : String
deriving DecidableEq

structure SetInterval where
  sectionName : String
  reps : Nat
  distanceMeters : Nat
  stroke : String
  sendOffSeconds : Option Nat
  intensity : Option String
  raw : String
  lineNumber : Nat
deriving DecidableEq

/-- A parsed set before the interpreter attaches `raw` and `lineNumber`
(the `Omit<SetInterval, 'raw' | 'lineNumber'>` of the source). -/
structure SetCore where
  sectionName : String
  reps : Nat
  distanceMeters : Nat
  stroke : String
  sendOffSeconds : Option Nat
  intensity : Option String
deriving DecidableEq

structure WorkoutTotals where
  totalDistanceMeters : Nat
  distanceBySection : List (String × Nat)
  distanceByIntensity : List (String × Nat)
  estimatedMinutes : Option ℚ
deriving DecidableEq

structure InterpretedWorkout where
  header : WorkoutHeader
  sets : List SetInterval
  totals : WorkoutTotals
  errors : List ParseError
  warnings : List String
deriving DecidableEq

/-! ## Grammar parser (`interpreter.ts`) -/

/-- Capture groups of `SET_LINE_REGEX =
`^(?:(\d+)x)?(\d+)\s+(\S+)(?:\s+@(\S+))?(?:\s+(\S+))?$`. -/
structure SetMatch where
  repsStr : Option (List Char)
  distanceStr : List Char
  strokeTok : List Char
  timeTok : Option (List Char)
  intensityTok : Option (List Char)
deriving DecidableEq

/-- Tail of the set regex after the stroke token:
`(?:\s+@(\S+))?(?:\s+(\S+))?$`. At most two whitespace-separated tokens
may remain; a first token of the form `@…` (with at least one character
after the `@`) binds the time group, otherwise a single token binds the
intensity group, and two remaining tokens only match as time then
intensity. -/
def matchSetTail (rest : List Char) : Option (Option (List Char) × Option (List Char)) :=
  if rest.isEmpty then some (none, none)
  else
    let ws := rest.takeWhile isSpaceChar
    if ws.isEmpty then none
    else
      let r := rest.drop ws.length
      let t1 := r.takeWhile (fun c => !isSpaceChar c)
      if t1.isEmpty then none
      else
        let r2 := r.drop t1.length
        if r2.isEmpty then
          match t1 with
          | '@' :: tt => if tt.isEmpty then some (none, some t1) else some (some tt, none)
          | _ => some (none, some t1)
        else
          let ws2 := r2.takeWhile isSpaceChar
          if ws2.isEmpty then none
          else
            let r3 := r2.drop ws2.length
            let t2 := r3.takeWhile (fun c => !isSpaceChar c)
            if t2.isEmpty then none
            else if !(r3.drop t2.length).isEmpty then none
            else
              match t1 with
              | '@' :: tt => if tt.isEmpty then none else some (some tt, some t2)
              | _ => none

/-- Deterministic compilation of `SET_LINE_REGEX` on an (already trimmed)
line. The optional `(\d+)x` prefix participates exactly when the longest
leading digit run is nonempty and immediately followed by `x` (characters
inside the run are digits, so no other backtracking split can place the
literal `x`); the mandatory distance is the following longest digit run,
which must be followed by whitespace; the stroke is the next maximal
non-whitespace token; the remainder is handled by `matchSetTail`. -/
def matchSetLine (cs : List Char) : Option SetMatch :=
  let d0 := cs.takeWhile isDigitChar
  let repsAndRest : Option (List Char) × List Char :=
    if d0 ≠ [] ∧ (cs.drop d0.length).head? = some 'x'
    then (some d0, cs.drop (d0.length + 1))
    else (none, cs)
  let rest1 := repsAndRest.2
  let dist := rest1.takeWhile isDigitChar
  if dist.isEmpty then none
  else
    let rest2 := rest1.drop dist.length
    let ws1 := rest2.takeWhile isSpaceChar
    if ws1.isEmpty then none
    else
      let rest3 := rest2.drop ws1.length
      let stroke := rest3.takeWhile (fun c => !isSpaceChar c)
      if stroke.isEmpty then none
      else
        match matchSetTail (rest3.drop stroke.length) with
        | none => none
        | some (timeTok, intensityTok) =>
          some ⟨repsAndRest.1, dist, stroke, timeTok, intensityTok⟩

/-- Embedding of `parseSetLine`: on a regex match, reps default to 1 when
the prefix is absent, invalid (zero) reps and distance are recorded as
errors but clamped to 0 with the set still kept, and a send-off token the
time codec rejects is recorded as an error with the field left absent. -/
def parseSetLine (trimmedLine : List Char) (currentSection : String) (lineNumber : Nat) :
    Option SetCore × List ParseError :=
  match matchSetLine trimmedLine with
  | none => (none, [⟨lineNumber, ("Unrecognized set syntax.")⟩])
  | some m =>
    let reps : Nat :=
      match m.repsStr with
      | some ds => natOfDigits ds
      | none => 1
    let distanceMeters := natOfDigits m.distanceStr
    let repsErrs : List ParseError :=
      if reps = 0 then
        [⟨lineNumber, ("Invalid reps value \"") ++ String.mk (m.repsStr.getD []) ++ ("\".")⟩]
      else []
    let distErrs : List ParseError :=
      if distanceMeters = 0 then
        [⟨lineNumber, ("Invalid distance value \"") ++ String.mk m.distanceStr ++ ("\".")⟩]
      else []
    let sendAndErrs : Option Nat × List ParseError :=
      match m.timeTok with
      | none => (none, [])
      | some tt =>
        match parseTimeToSecondsL tt with
        | none =>
          (none, [⟨lineNumber, ("Invalid time format \"") ++ String.mk tt ++
            ("\". Expected formats like \"1:40\" or \"45\".")⟩])
        | some s => (some s, [])
    (some { sectionName := currentSection
            reps := reps
            distanceMeters := distanceMeters
            stroke := String.mk m.strokeTok
            sendOffSeconds := sendAndErrs.1
            intensity := m.intensityTok.map String.mk },
     repsErrs ++ distErrs ++ sendAndErrs.2)

/-- Embedding of `extractInteger`: first digit run of the string, if any. -/
def extractInteger (source : List Char) : Option Nat :=
  (firstDigitRun source).map natOfDigits

/-- Embedding of `handleHeaderLine`. Returns `none` when the line is not
a header directive (source returns `false`); otherwise the updated header
together with any line-level errors. -/
def handleHeaderLine (trimmedLine : List Char) (header : WorkoutHeader) (lineNumber : Nat) :
    Option (WorkoutHeader × List ParseError) :=
  match wsTokens trimmedLine with
  | [] => none
  | firstToken :: restTokens =>
    let key := jsToLower firstToken
    let restJoined := joinSpace restTokens
    if key = ("pool").toList then
      match extractInteger (if restJoined.isEmpty then firstToken else restJoined) with
      | some meters => some ({ header with poolLengthMeters := some meters }, [])
      | none => some (header,
          [⟨lineNumber, ("Unable to parse pool length from \"") ++
            String.mk trimmedLine ++ ("\".")⟩])
    else if key = ("duration").toList then
      match extractInteger restJoined with
      | some minutes => some ({ header with plannedDurationMinutes := some minutes }, [])
      | none => some (header,
          [⟨lineNumber, ("Unable to parse duration from \"") ++
            String.mk trimmedLine ++ ("\".")⟩])
    else if key = ("title").toList then
      some ({ header with title := some (String.mk restJoined) }, [])
    else if key = ("focus").toList then
      some ({ header with focus := some (String.mk restJoined) }, [])
    else if key = ("profile").toList then
      some ({ header with profile := some (String.mk restJoined) }, [])
    else none

/-! ## Totals and duration estimate -/

/-- Record update `m[k] = (m[k] ?? 0) + v`, with JS string-keyed objects
modelled as association lists in insertion order. -/
def bump (l : List (String × Nat)) (k : String) (v : Nat) : List (String × Nat) :=
  match l with
  | [] => [(k, v)]
  | (k', v') :: rest => if k' = k then (k', v' + v) :: rest else (k', v') :: bump rest k v

def sumValues (l : List (String × Nat)) : Nat :=
  (l.map (fun kv => kv.2)).sum

def lookupD (l : List (String × Nat)) (k : String) : Nat :=
  match l with
  | [] => 0
  | (k', v) :: rest => if k' = k then v else lookupD rest k

/-- Embedding of `computeTotals`: per set, contribution is
`reps * distanceMeters`, summed overall, per section, and per intensity
(absent intensity goes to the `unknown` bucket). -/
def computeTotals (sets : List SetInterval) : WorkoutTotals :=
  let r := sets.foldl
    (fun (acc : Nat × List (String × Nat) × List (String × Nat)) s =>
      let distanceForSet := s.reps * s.distanceMeters
      (acc.1 + distanceForSet,
       bump acc.2.1 s.sectionName distanceForSet,
       bump acc.2.2 (s.intensity.getD ("unknown")) distanceForSet))
    (0, [], [])
  { totalDistanceMeters := r.1
    distanceBySection := r.2.1
    distanceByIntensity := r.2.2
    estimatedMinutes := none }

/-- Embedding of `estimateDurationMinutes`: no sets gives no estimate;
when at least half the sets (real-valued comparison) carry a send-off,
the estimate is the send-off sum in minutes; otherwise positive distance
is estimated at 90 seconds per 100 meters. -/
def estimateDurationMinutes (sets : List SetInterval) (totalDistanceMeters : Nat) : Option ℚ :=
  if sets.isEmpty then none
  else
    let setsWithSendOff := sets.filter (fun s => s.sendOffSeconds.isSome)
    if (sets.length : ℚ) / 2 ≤ (setsWithSendOff.length : ℚ) then
      let totalSeconds : Nat :=
        setsWithSendOff.foldl (fun acc s => acc + s.reps * s.sendOffSeconds.getD 0) 0
      some ((totalSeconds : ℚ) / 60)
    else if totalDistanceMeters = 0 then none
    else some (((totalDistanceMeters : ℚ) / 100) * 90 / 60)

/-! ## Interpreter driver -/

def overMessage (e : ℚ) (p : Nat) (absDiff : ℚ) : String :=
  ("Estimated duration (~") ++ toFixed1 e ++ (" min) exceeds planned duration (") ++
    showNat p ++ (" min) by about ") ++ toFixed1 absDiff ++ (" min.")

def underMessage (e : ℚ) (p : Nat) (absDiff : ℚ) : String :=
  ("Estimated duration (~") ++ toFixed1 e ++
    (" min) is significantly shorter than planned duration (") ++
    showNat p ++ (" min) by about ") ++ toFixed1 absDiff ++ (" min.")

/-- Variance-warning block of `interpretShorthand`: when both a planned
duration and an estimate exist and they differ by strictly more than 10
minutes, exactly one warning is pushed, worded by the sign of the
difference. -/
def warningsOf (planned : Option Nat) (est : Option ℚ) : List String :=
  match planned, est with
  | some p, some e =>
    let diff := e - (p : ℚ)
    let absDiff := |diff|
    if 10 < absDiff then
      if 0 < diff then [overMessage e p absDiff] else [underMessage e p absDiff]
    else []
  | _, _ => []

/-- Splitting on the regex `/\r?\n/`: `\n` terminates a line, optionally
preceded by `\r`; a lone `\r` is ordinary content. -/
def splitLinesAux : List Char → List Char → List (List Char)
  | [], cur => [cur.reverse]
  | '\r' :: '\n' :: rest, cur => cur.reverse :: splitLinesAux rest []
  | '\n' :: rest, cur => cur.reverse :: splitLinesAux rest []
  | c :: rest, cur => splitLinesAux rest (c :: cur)

def splitLinesL (cs : List Char) : List (List Char) := splitLinesAux cs []

/-- Accumulator of the line fold in `interpretShorthand`. -/
structure InterpState where
  header : WorkoutHeader
  currentSection : String
  sets : List SetInterval
  errors : List ParseError
deriving DecidableEq

def initState : InterpState := ⟨emptyHeader, ("main"), [], []⟩

/-- Per-line dispatch of `interpretShorthand`: blank/comment lines are
skipped, a trailing `:` declares a section (empty name is an error), then
header directives, then the set grammar. -/
def processLine (st : InterpState) (lineNumber : Nat) (rawLine : List Char) : InterpState :=
  let trimmed := jsTrim rawLine
  if trimmed.isEmpty then st
  else if trimmed.head? = some '#' then st
  else if trimmed.getLast? = some ':' then
    let sectionName := jsToLower (jsTrim trimmed.dropLast)
    if sectionName.isEmpty then
      { st with errors := st.errors ++ [⟨lineNumber, ("Empty section name.")⟩] }
    else { st with currentSection := String.mk sectionName }
  else
    match handleHeaderLine trimmed st.header lineNumber with
    | some (h, errs) => { st with header := h, errors := st.errors ++ errs }
    | none =>
      match parseSetLine trimmed st.currentSection lineNumber with
      | (none, errs) => { st with errors := st.errors ++ errs }
      | (some core, errs) =>
        { st with
          errors := st.errors ++ errs
          sets := st.sets ++
            [{ sectionName := core.sectionName
               reps := core.reps
               distanceMeters := core.distanceMeters
               stroke := core.stroke
               sendOffSeconds := core.sendOffSeconds
               intensity := core.intensity
               raw := String.mk rawLine
               lineNumber := lineNumber }] }

def interpLoop : InterpState → Nat → List (List Char) → InterpState
  | st, _, [] => st
  | st, n, l :: rest => interpLoop (processLine st n l) (n + 1) rest

/-- Embedding of `interpretShorthand`: fold the per-line dispatch over
the newline-split input with 1-based line numbers, then compute totals,
the duration estimate, and the variance warnings. Total by construction:
no input raises. -/
def interpretShorthand (text : String) : InterpretedWorkout :=
  let lines := splitLinesL text.toList
  let st := interpLoop initState 1 lines
  let totals0 := computeTotals st.sets
  let est := estimateDurationMinutes st.sets totals0.totalDistanceMeters
  { header := st.header
    sets := st.sets
    totals := { totals0 with estimatedMinutes := est }
    errors := st.errors
    warnings := warningsOf st.header.plannedDurationMinutes est }

/-! ## Generator (`generator.ts`) -/

inductive Focus where
  | aerobic
  | threshold
  | sprint
  | technique
deriving DecidableEq

inductive Profile where
  | novice
  | intermediate
  | elite
deriving DecidableEq

structure GenerateConstraints where
  poolLengthMeters : Nat
  targetDistanceMeters : Option Int
  targetDurationMinutes : Option Nat
  focus : Focus
  profile : Profile
  title : Option String
deriving DecidableEq

structure TemplateLine where
  sectionTag : String
  baseReps : Nat
  distance : Nat
  stroke : String
  sendOff : Option String
  intensity : Option String
  comment : Option String
deriving DecidableEq

def focusText : Focus → String
  | Focus.aerobic => ("aerobic")
  | Focus.threshold => ("threshold")
  | Focus.sprint => ("sprint")
  | Focus.technique => ("technique")

def profileText : Profile → String
  | Profile.novice => ("novice")
  | Profile.intermediate => ("intermediate")
  | Profile.elite => ("elite")

/-- Embedding of `normalizeToPool`: round a distance up to the next
multiple of the pool length (nonpositive distance becomes one pool). -/
def normalizeToPool (distance pool : Nat) : Nat :=
  if distance = 0 then pool
  else
    let remainder := distance % pool
    if remainder = 0 then distance else distance + (pool - remainder)

def computeTemplateDistance (template : List TemplateLine) (pool : Nat) : Nat :=
  template.foldl (fun total line => total + line.baseReps * normalizeToPool line.distance pool) 0

/-- Embedding of `clamp(value, min, max) = Math.max(min, Math.min(max, value))`. -/
def clamp (value lo hi : ℤ) : ℤ := max lo (min hi value)

/-- Profile scaling factor of `chooseTargetDistance` (novice ×0.75,
elite ×1.25, otherwise ×1.0). -/
def profileFactor : Profile → ℚ
  | Profile.novice => 3 / 4
  | Profile.elite => 5 / 4
  | Profile.intermediate => 1

/-- Embedding of `chooseTargetDistance`: honor a positive
`targetDistanceMeters`, otherwise scale the template total by the profile
factor (rounded); clamp the result to [1500, 6000]. -/
def chooseTargetDistance (goal : GenerateConstraints) (baseTotal : Nat) : ℤ :=
  let scaled : ℤ := jsRound ((baseTotal : ℚ) * profileFactor goal.profile)
  let target : ℤ :=
    match goal.targetDistanceMeters with
    | some t => if t ≤ 0 then scaled else t
    | none => scaled
  clamp target 1500 6000

/-- Embedding of `buildSetLine`: `[reps]x<distance> <stroke>[ @time][ intensity]`,
omitting the reps prefix when reps is at most 1. -/
def buildSetLine (reps distance : Nat) (stroke : String)
    (sendOff intensity : Option String) : String :=
  let repsPart := if 1 < reps then showNat reps ++ ("x") else ("")
  let sendOffPart := match sendOff with | some t => (" @") ++ t | none => ("")
  let intensityPart := match intensity with | some i => (" ") ++ i | none => ("")
  repsPart ++ showNat distance ++ (" ") ++ stroke ++ sendOffPart ++ intensityPart

/-- DSL lines emitted for one template line: the optional comment line,
then the set line with reps scaled by `scale`, floored at 1 and capped at
three times the baseline. -/
def renderTemplateLine (pool : Nat) (scale : ℚ) (line : TemplateLine) : List String :=
  let commentLines : List String :=
    match line.comment with
    | some c => [("# ") ++ c]
    | none => []
  let effectiveDistance := normalizeToPool line.distance pool
  let scaledReps0 := (jsRound ((line.baseReps : ℚ) * scale)).toNat
  let scaledReps1 := if scaledReps0 < 1 then 1 else scaledReps0
  let maxReps := line.baseReps * 3
  let scaledReps := if maxReps < scaledReps1 then maxReps else scaledReps1
  commentLines ++
    [buildSetLine scaledReps effectiveDistance line.stroke line.sendOff line.intensity]

def AEROBIC_TEMPLATE : List TemplateLine :=
  [⟨("warmup"), 1, 300, ("choice"), none, some ("easy"), some ("Easy swim, long strokes")⟩,
   ⟨("warmup"), 4, 50, ("drill"), some ("1:00"), some ("aerobic"),
     some ("Technique focus, 1 stroke per 50 if you want")⟩,
   ⟨("warmup"), 4, 25, ("FR"), some ("0:30"), some ("build"),
     some ("Build 1-4, finish near race tempo")⟩,
   ⟨("preset"), 6, 50, ("kick"), some ("1:00"), some ("moderate"),
     some ("Kick with board or streamline; keep it moving")⟩,
   ⟨("preset"), 4, 50, ("pull"), some ("1:00"), some ("aerobic"),
     some ("Pull with buoy, focus on distance per stroke")⟩,
   ⟨("main"), 6, 100, ("FR"), some ("1:40"), some ("aerobic"),
     some ("Steady aerobic, hold consistent pace")⟩,
   ⟨("main"), 4, 200, ("FR"), some ("3:30"), some ("moderate"),
     some ("Longer repeats, smooth & controlled")⟩,
   ⟨("cooldown"), 1, 200, ("choice"), none, some ("easy"), some ("Easy swim, flush out")⟩,
   ⟨("cooldown"), 4, 25, ("choice"), none, some ("easy"), none⟩]

def THRESHOLD_TEMPLATE : List TemplateLine :=
  [⟨("warmup"), 1, 300, ("choice"), none, some ("easy"), some ("Easy swim, loosen up")⟩,
   ⟨("warmup"), 4, 50, ("drill"), some ("1:00"), some ("aerobic"),
     some ("Technique, long strokes")⟩,
   ⟨("warmup"), 4, 25, ("FR"), some ("0:30"), some ("build"), some ("Build 1-4 to strong")⟩,
   ⟨("warmup"), 4, 25, ("kick"), some ("0:40"), some ("moderate"),
     some ("Short kick to wake legs")⟩,
   ⟨("preset"), 6, 50, ("FR"), some ("0:55"), some ("moderate"),
     some ("Prep for threshold pace, focus on rhythm")⟩,
   ⟨("preset"), 4, 50, ("FR"), some ("1:00"), some ("build"),
     some ("Descend or build within each 50")⟩,
   ⟨("preset"), 1, 100, ("choice"), none, some ("easy"), some ("Easy before main set")⟩,
   ⟨("main"), 8, 100, ("FR"), some ("1:30"), some ("thresh"),
     some ("Block 1 - straight threshold 100s")⟩,
   ⟨("main"), 4, 50, ("FR"), some ("0:50"), some ("fast"),
     some ("Fast 50s to sharpen speed")⟩,
   ⟨("main"), 4, 100, ("FR"), some ("1:35"), some ("thresh"),
     some ("Block 2 - hold pace under fatigue")⟩,
   ⟨("main"), 4, 50, ("choice"), some ("1:00"), some ("easy"),
     some ("Easy active recovery")⟩,
   ⟨("cooldown"), 1, 200, ("choice"), none, some ("easy"), some ("Long easy swim")⟩,
   ⟨("cooldown"), 4, 25, ("choice"), none, some ("easy"), none⟩]

def SPRINT_TEMPLATE : List TemplateLine :=
  [⟨("warmup"), 1, 300, ("choice"), none, some ("easy"), some ("Easy swim, mix strokes")⟩,
   ⟨("warmup"), 4, 50, ("drill"), some ("1:00"), some ("aerobic"),
     some ("Drill focus - streamline, catch, finish")⟩,
   ⟨("warmup"), 4, 25, ("FR"), some ("0:30"), some ("build"),
     some ("Build 1-4, faster into the wall")⟩,
   ⟨("preset"), 8, 25, ("kick"), some ("0:40"), some ("moderate"),
     some ("Kick with high tempo, good streamline")⟩,
   ⟨("preset"), 4, 50, ("FR"), some ("0:55"), some ("build"),
     some ("Build 1-4, last 15m strong")⟩,
   ⟨("main"), 12, 25, ("FR"), some ("0:40"), some ("sprint"),
     some ("All-out 25s, focus on start + first 10m")⟩,
   ⟨("main"), 12, 25, ("FR"), some ("0:50"), some ("easy"),
     some ("Equal easy swimming for active recovery")⟩,
   ⟨("main"), 8, 50, ("kick"), some ("1:10"), some ("fast"),
     some ("Fast kick 50s - walls + underwaters")⟩,
   ⟨("main"), 4, 50, ("FR"), some ("1:00"), some ("sprint"),
     some ("50s from a push, race effort")⟩,
   ⟨("cooldown"), 1, 200, ("choice"), none, some ("easy"),
     some ("Easy choice, relax the stroke")⟩,
   ⟨("cooldown"), 8, 25, ("choice"), none, some ("easy"), none⟩]

def TECHNIQUE_TEMPLATE : List TemplateLine :=
  [⟨("warmup"), 1, 300, ("choice"), none, some ("easy"),
     some ("Easy swim, focus on body line")⟩,
   ⟨("warmup"), 4, 50, ("drill"), some ("1:05"), some ("aerobic"),
     some ("Simple drills: catch-up, fingertip drag, etc.")⟩,
   ⟨("warmup"), 4, 25, ("FR"), some ("0:30"), some ("build"),
     some ("Build 1-4, hold good form")⟩,
   ⟨("preset"), 4, 50, ("drill"), some ("1:10"), some ("aerobic"),
     some ("Drill only, no rush")⟩,
   ⟨("preset"), 4, 50, ("kick"), some ("1:10"), some ("moderate"),
     some ("Kick on side or on back, stable head")⟩,
   ⟨("preset"), 4, 50, ("drill"), some ("1:10"), some ("aerobic"),
     some ("Second drill focus - maybe breathing or rotation")⟩,
   ⟨("preset"), 8, 25, ("drill"), some ("0:45"), some ("aerobic"),
     some ("Short drill 25s, very precise")⟩,
   ⟨("main"), 8, 100, ("FR"), some ("2:00"), some ("aerobic"),
     some ("100s, keep stroke count low, good form")⟩,
   ⟨("main"), 4, 50, ("drill"), some ("1:00"), some ("aerobic"),
     some ("Finish with pure drills")⟩,
   ⟨("cooldown"), 1, 200, ("choice"), none, some ("easy"),
     some ("Easy swim, flush everything out")⟩,
   ⟨("cooldown"), 8, 25, ("choice"), none, some ("easy"), none⟩]

def TEMPLATES : Focus → List TemplateLine
  | Focus.aerobic => AEROBIC_TEMPLATE
  | Focus.threshold => THRESHOLD_TEMPLATE
  | Focus.sprint => SPRINT_TEMPLATE
  | Focus.technique => TECHNIQUE_TEMPLATE

/-- DSL lines of one section block: header `name:`, two-space indented
content, then a blank separator line; empty sections are omitted. -/
def sectionBlock (template : List TemplateLine) (pool : Nat) (scale : ℚ)
    (tag : String) : List String :=
  let content :=
    (template.filter (fun l => l.sectionTag = tag)).foldr
      (fun l acc => renderTemplateLine pool scale l ++ acc) []
  if content.isEmpty then []
  else (tag ++ (":")) :: content.map (fun l => ("  ") ++ l) ++ [("")]

/-- Embedding of `generateWorkoutDSL`: header block, then the four
sections in fixed order, with trailing blank lines stripped. -/
def generateWorkoutDSL (goal : GenerateConstraints) : String :=
  let pool := goal.poolLengthMeters
  let template := TEMPLATES goal.focus
  let baseTotal := computeTemplateDistance template pool
  let targetTotal := chooseTargetDistance goal baseTotal
  let scale : ℚ := (targetTotal : ℚ) / (baseTotal : ℚ)
  let headerLines : List String :=
    [("pool ") ++ showNat pool ++ ("m")] ++
      (match goal.targetDurationMinutes with
       | some d => if d = 0 then [] else [("duration ") ++ showNat d ++ ("min")]
       | none => []) ++
      (match goal.title with
       | some t => if t = ("") then [] else [("title ") ++ t]
       | none => []) ++
      [("focus ") ++ focusText goal.focus, ("profile ") ++ profileText goal.profile, ("")]
  let allLines := headerLines ++ sectionBlock template pool scale ("warmup") ++
    sectionBlock template pool scale ("preset") ++
    sectionBlock template pool scale ("main") ++
    sectionBlock template pool scale ("cooldown")
  let stripped := (allLines.reverse.dropWhile (fun l => (jsTrim l.toList).isEmpty)).reverse
  String.intercalate ("\n") stripped

/-! ## Claim-side shape predicates -/

/-- Claim wording for the time codec: a bare nonnegative integer literal. -/
def bareIntShape (s : String) : Prop :=
  s.toList ≠ [] ∧ ∀ c ∈ s.toList, isDigitChar c

/-- Claim wording for the time codec: a `minutes:seconds` literal with
seconds in 0–59. -/
def minSecShape (s : String) : Prop :=
  ∃ ms ss : List Char, ms ≠ [] ∧ ss ≠ [] ∧ (∀ c ∈ ms, isDigitChar c) ∧
    (∀ c ∈ ss, isDigitChar c) ∧ natOfDigits ss ≤ 59 ∧ s.toList = ms ++ ':' :: ss

/-- A line that the interpreter can only reject: non-blank, not a
comment, not a section header, not a recognised header directive, and
failing the set grammar. -/
def unrecognizedLine (trimmed : List Char) : Prop :=
  trimmed ≠ [] ∧ trimmed.head? ≠ some '#' ∧ trimmed.getLast? ≠ some ':' ∧
    handleHeaderLine trimmed emptyHeader 0 = none ∧ matchSetLine trimmed = none

end Swimset

namespace Swimset

/-! ## Shared helper lemmas -/

theorem digit_not_space {c : Char} (h : isDigitChar c = true) : isSpaceChar c = false := by
  simp only [isDigitChar, Bool.and_eq_true, decide_eq_true_eq] at h
  simp only [isSpaceChar, Bool.or_eq_false_iff, decide_eq_false_iff_not]
  omega

theorem digit_ne_of_toNat {c : Char} {d : Char} (h : isDigitChar c = true)
    (hd : d.toNat < 48 ∨ 57 < d.toNat) : c ≠ d := by
  intro he
  simp only [isDigitChar, Bool.and_eq_true, decide_eq_true_eq] at h
  subst he
  omega

theorem dropWhile_eq_self_of_none {p : Char → Bool} {cs : List Char}
    (h : ∀ c ∈ cs, p c = false) : cs.dropWhile p = cs := by
  cases cs with
  | nil => rfl
  | cons c rest => simp [List.dropWhile_cons, h c (by simp)]

theorem takeWhile_eq_self_of_all {p : Char → Bool} {cs : List Char}
    (h : ∀ c ∈ cs, p c = true) : cs.takeWhile p = cs := by
  induction cs with
  | nil => rfl
  | cons c rest ih =>
    simp [List.takeWhile_cons, h c (by simp), ih fun x hx => h x (by simp [hx])]

theorem jsTrim_eq_self {cs : List Char} (h : ∀ c ∈ cs, isSpaceChar c = false) :
    jsTrim cs = cs := by
  unfold jsTrim
  rw [dropWhile_eq_self_of_none h, dropWhile_eq_self_of_none (by simpa using fun c hc => h c hc),
    List.reverse_reverse]

theorem digitChar_isDigit {d : Nat} (h : d < 10) : isDigitChar (digitChar d) = true := by
  interval_cases d <;> decide

theorem digitVal_digitChar {d : Nat} (h : d < 10) : digitVal (digitChar d) = d := by
  interval_cases d <;> decide

theorem natOfDigits_snoc (xs : List Char) (c : Char) :
    natOfDigits (xs ++ [c]) = 10 * natOfDigits xs + digitVal c := by
  simp [natOfDigits, List.foldl_append]

theorem natDigits_ne_nil (n : Nat) : natDigits n ≠ [] := by
  rw [natDigits]
  split <;> simp

theorem natDigits_all_digits (n : Nat) : ∀ c ∈ natDigits n, isDigitChar c = true := by
  induction n using Nat.strong_induction_on with
  | _ n ih =>
    rw [natDigits]
    split
    · intro c hc
      rw [List.mem_singleton] at hc
      subst hc
      exact digitChar_isDigit (by omega)
    · intro c hc
      rcases List.mem_append.mp hc with h1 | h2
      · exact ih (n / 10) (Nat.div_lt_self (by omega) (by omega)) c h1
      · rw [List.mem_singleton] at h2
        subst h2
        exact digitChar_isDigit (Nat.mod_lt _ (by omega))

theorem natOfDigits_natDigits (n : Nat) : natOfDigits (natDigits n) = n := by
  induction n using Nat.strong_induction_on with
  | _ n ih =>
    rw [natDigits]
    split
    · next h =>
      show natOfDigits ([] ++ [digitChar n]) = n
      rw [natOfDigits_snoc]
      simp [natOfDigits, digitVal_digitChar h]
    · next h =>
      rw [natOfDigits_snoc, ih (n / 10) (Nat.div_lt_self (by omega) (by omega)),
        digitVal_digitChar (Nat.mod_lt _ (by omega))]
      omega

theorem showNatAux_eq_natDigits :
    ∀ (fuel n : Nat) (acc : List Char), n < 10 ^ (fuel + 1) →
      showNatAux (fuel + 1) n acc = natDigits n ++ acc := by
  intro fuel
  induction fuel with
  | zero =>
    intro n acc h
    have h10 : n < 10 := by simpa using h
    have hdiv : n / 10 = 0 := Nat.div_eq_of_lt h10
    simp only [showNatAux, hdiv, if_pos rfl]
    rw [natDigits, if_pos h10, Nat.mod_eq_of_lt h10]
    rfl
  | succ fuel ih =>
    intro n acc h
    have hstep : showNatAux (fuel + 1 + 1) n acc
        = if n / 10 = 0 then digitChar (n % 10) :: acc
          else showNatAux (fuel + 1) (n / 10) (digitChar (n % 10) :: acc) := rfl
    rw [hstep]
    by_cases h10 : n < 10
    · rw [if_pos (Nat.div_eq_of_lt h10), natDigits, if_pos h10, Nat.mod_eq_of_lt h10]
      rfl
    · have hdiv : n / 10 ≠ 0 := by
        intro hz
        exact h10 (by omega)
      rw [if_neg hdiv]
      have h2 : n / 10 < 10 ^ (fuel + 1) := by
        apply Nat.div_lt_of_lt_mul
        calc n < 10 ^ (fuel + 1 + 1) := h
        _ = 10 * 10 ^ (fuel + 1) := by ring
      rw [ih (n / 10) _ h2]
      conv_rhs => rw [natDigits]
      rw [if_neg h10]
      simp

theorem showNatL_eq_natDigits (n : Nat) : showNatL n = natDigits n := by
  have hpow : n < 10 ^ (n + 1) := by
    calc n < 10 ^ n := Nat.lt_pow_self (by omega) n
    _ ≤ 10 ^ (n + 1) := Nat.pow_le_pow_right (by omega) (by omega)
  rw [showNatL, showNatAux_eq_natDigits n n [] hpow, List.append_nil]

theorem showNatL_all_digits (n : Nat) : ∀ c ∈ showNatL n, isDigitChar c = true := by
  rw [showNatL_eq_natDigits]
  exact natDigits_all_digits n

theorem showNatL_ne_nil (n : Nat) : showNatL n ≠ [] := by
  rw [showNatL_eq_natDigits]
  exact natDigits_ne_nil n

theorem natOfDigits_showNatL (n : Nat) : natOfDigits (showNatL n) = n := by
  rw [showNatL_eq_natDigits]
  exact natOfDigits_natDigits n

end Swimset

namespace Swimset

/-! ## Time codec lemmas -/

theorem splitOnChar_of_not_mem {sep : Char} {cs : List Char} (h : sep ∉ cs) :
    splitOnChar sep cs = [cs] := by
  induction cs with
  | nil => rfl
  | cons c rest ih =>
    have hc : c ≠ sep := fun he => h (he ▸ List.mem_cons_self c rest)
    have hr : sep ∉ rest := fun hm => h (List.mem_cons_of_mem c hm)
    simp only [splitOnChar, if_neg hc, ih hr]

theorem splitOnChar_ne_nil (sep : Char) (cs : List Char) : splitOnChar sep cs ≠ [] := by
  induction cs with
  | nil => simp [splitOnChar]
  | cons c rest ih =>
    by_cases hc : c = sep
    · simp [splitOnChar, hc]
    · simp only [splitOnChar, if_neg hc]
      cases h : splitOnChar sep rest with
      | nil => simp
      | cons a t => simp

theorem splitOnChar_append {sep : Char} {xs ys : List Char} (h : sep ∉ xs) :
    splitOnChar sep (xs ++ sep :: ys) = xs :: splitOnChar sep ys := by
  induction xs with
  | nil => simp [splitOnChar]
  | cons c rest ih =>
    have hc : c ≠ sep := fun he => h (he ▸ List.mem_cons_self c rest)
    have hr : sep ∉ rest := fun hm => h (List.mem_cons_of_mem c hm)
    have hih : splitOnChar sep (rest.append (sep :: ys)) = rest :: splitOnChar sep ys :=
      ih hr
    simp only [List.cons_append, splitOnChar, if_neg hc]
    rw [hih]

theorem length_splitOnChar (sep : Char) (cs : List Char) :
    (splitOnChar sep cs).length = cs.count sep + 1 := by
  induction cs with
  | nil => simp [splitOnChar]
  | cons c rest ih =>
    by_cases hc : c = sep
    · subst hc
      simp [splitOnChar, ih, List.count_cons]
    · simp only [splitOnChar, if_neg hc]
      obtain ⟨h0, t0, he⟩ := List.exists_cons_of_ne_nil (splitOnChar_ne_nil sep rest)
      rw [he]
      have hlen := ih
      rw [he] at hlen
      simpa [List.count_cons, hc] using hlen

theorem not_space_of_digit_or_colon {cs : List Char}
    (h : ∀ c ∈ cs, isDigitChar c = true ∨ c = ':') : ∀ c ∈ cs, isSpaceChar c = false := by
  intro c hc
  rcases h c hc with hd | hcol
  · exact digit_not_space hd
  · subst hcol
    decide

theorem digits_contains_colon_false {ds : List Char} (hd : ∀ c ∈ ds, isDigitChar c = true) :
    ds.contains ':' = false := by
  have : ':' ∉ ds := by
    intro hm
    have := hd ':' hm
    simp [isDigitChar] at this
  simpa using this

theorem jsParseInt_digits {ds : List Char} (h : ds ≠ [])
    (hd : ∀ c ∈ ds, isDigitChar c = true) :
    jsParseInt ds = some ((natOfDigits ds : Int)) := by
  obtain ⟨c, rest, rfl⟩ := List.exists_cons_of_ne_nil h
  have hcd : isDigitChar c = true := hd c (by simp)
  have hdrop : (c :: rest).dropWhile isSpaceChar = c :: rest :=
    dropWhile_eq_self_of_none fun x hx => digit_not_space (hd x hx)
  have hcminus : c ≠ '-' := digit_ne_of_toNat hcd (by left; decide)
  have hcplus : c ≠ '+' := digit_ne_of_toNat hcd (by left; decide)
  have htake : (c :: rest).takeWhile isDigitChar = c :: rest :=
    takeWhile_eq_self_of_all hd
  have hrest : ¬(c = '+' ∨ c = '-') := by
    rintro (h1 | h2)
    · exact hcplus h1
    · exact hcminus h2
  simp only [jsParseInt, hdrop, List.head?_cons, Option.some.injEq]
  rw [if_neg hcminus, if_neg hrest, htake]
  simp

theorem parseTimeL_digits {ds : List Char} (h : ds ≠ [])
    (hd : ∀ c ∈ ds, isDigitChar c = true) :
    parseTimeToSecondsL ds = some (natOfDigits ds) := by
  have htrim : jsTrim ds = ds := jsTrim_eq_self fun c hc => digit_not_space (hd c hc)
  have hne : ds.isEmpty = false := by
    cases ds with
    | nil => exact absurd rfl h
    | cons c rest => rfl
  simp only [parseTimeToSecondsL, hne, Bool.false_eq_true, if_false, htrim,
    digits_contains_colon_false hd, jsParseInt_digits h hd]
  simp

theorem parseTimeL_minsec {ms ss : List Char} (hm : ms ≠ []) (hs : ss ≠ [])
    (hdm : ∀ c ∈ ms, isDigitChar c = true) (hds : ∀ c ∈ ss, isDigitChar c = true) :
    parseTimeToSecondsL (ms ++ ':' :: ss)
      = if 60 ≤ natOfDigits ss then none
        else some (natOfDigits ms * 60 + natOfDigits ss) := by
  have hnospace : ∀ c ∈ ms ++ ':' :: ss, isSpaceChar c = false := by
    apply not_space_of_digit_or_colon
    intro c hc
    rcases List.mem_append.mp hc with h1 | h2
    · exact Or.inl (hdm c h1)
    · rcases List.mem_cons.mp h2 with h3 | h4
      · exact Or.inr h3
      · exact Or.inl (hds c h4)
  have htrim : jsTrim (ms ++ ':' :: ss) = ms ++ ':' :: ss := jsTrim_eq_self hnospace
  have hne : (ms ++ ':' :: ss).isEmpty = false := by
    cases ms <;> rfl
  have hcontains : (ms ++ ':' :: ss).contains ':' = true := by
    simp
  have hmsnotmem : ':' ∉ ms := by
    intro hmem
    have := hdm ':' hmem
    simp [isDigitChar] at this
  have hssnotmem : ':' ∉ ss := by
    intro hmem
    have := hds ':' hmem
    simp [isDigitChar] at this
  have hsplit : splitOnChar ':' (ms ++ ':' :: ss) = [ms, ss] := by
    rw [splitOnChar_append hmsnotmem, splitOnChar_of_not_mem hssnotmem]
  simp only [parseTimeToSecondsL, hne, Bool.false_eq_true, if_false, htrim, hcontains,
    if_true, hsplit, jsParseInt_digits hm hdm, jsParseInt_digits hs hds]
  apply if_congr (by omega) rfl
  simp only [Option.some.injEq]
  omega

end Swimset

namespace Swimset

theorem count_dropWhile_of_not {c : Char} {p : Char → Bool} (hc : p c = false)
    (cs : List Char) : (cs.dropWhile p).count c = cs.count c := by
  conv_rhs => rw [← List.takeWhile_append_dropWhile p cs]
  rw [List.count_append]
  have hz : (cs.takeWhile p).count c = 0 := by
    rw [List.count_eq_zero]
    intro hm
    have := List.mem_takeWhile_imp hm
    rw [hc] at this
    exact Bool.false_ne_true this
  omega

theorem count_jsTrim_of_not_space {c : Char} (hc : isSpaceChar c = false) (cs : List Char) :
    (jsTrim cs).count c = cs.count c := by
  unfold jsTrim
  rw [List.count_reverse, count_dropWhile_of_not hc, List.count_reverse,
    count_dropWhile_of_not hc]

theorem parseTimeL_multicolon {cs : List Char} (h : 2 ≤ cs.count ':') :
    parseTimeToSecondsL cs = none := by
  have hne : cs.isEmpty = false := by
    cases cs with
    | nil => simp at h
    | cons a t => rfl
  rw [parseTimeToSecondsL]
  rw [if_neg (by simp [hne])]
  by_cases htr : (jsTrim cs).isEmpty = true
  · rw [if_pos htr]
  · rw [if_neg htr]
    have hcount : 2 ≤ (jsTrim cs).count ':' := by
      rw [count_jsTrim_of_not_space (by decide)]
      exact h
    have hmem : ':' ∈ jsTrim cs := List.count_pos_iff.mp (by omega)
    have hcontains : (jsTrim cs).contains ':' = true := by simpa using hmem
    rw [if_pos hcontains]
    have hlen : 3 ≤ (splitOnChar ':' (jsTrim cs)).length := by
      rw [length_splitOnChar]
      omega
    obtain ⟨a, t1, hsp⟩ := List.exists_cons_of_ne_nil (splitOnChar_ne_nil ':' (jsTrim cs))
    rw [hsp] at hlen
    rw [hsp]
    rcases t1 with _ | ⟨b, t2⟩
    · rfl
    · rcases t2 with _ | ⟨d, t3⟩
      · simp at hlen
      · rfl

theorem jsParseInt_neg_digits {ds : List Char} (h : ds ≠ [])
    (hd : ∀ c ∈ ds, isDigitChar c = true) :
    jsParseInt ('-' :: ds) = some (-(natOfDigits ds : Int)) := by
  have hdrop : ('-' :: ds).dropWhile isSpaceChar = '-' :: ds :=
    dropWhile_eq_self_of_none (by
      intro x hx
      rcases List.mem_cons.mp hx with h1 | h2
      · subst h1; decide
      · exact digit_not_space (hd x h2))
  have htake : ds.takeWhile isDigitChar = ds := takeWhile_eq_self_of_all hd
  have hne : ds.isEmpty = false := by
    cases ds with
    | nil => exact absurd rfl h
    | cons a t => rfl
  simp [jsParseInt, hdrop, htake, hne]

theorem parseTimeL_neg_bare {ds : List Char} (h : ds ≠ [])
    (hd : ∀ c ∈ ds, isDigitChar c = true) (hv : natOfDigits ds ≠ 0) :
    parseTimeToSecondsL ('-' :: ds) = none := by
  have htrim : jsTrim ('-' :: ds) = '-' :: ds :=
    jsTrim_eq_self (by
      intro x hx
      rcases List.mem_cons.mp hx with h1 | h2
      · subst h1; decide
      · exact digit_not_space (hd x h2))
  have hnocolon : ('-' :: ds).contains ':' = false := by
    have hnm : ':' ∉ '-' :: ds := by
      intro hm
      rcases List.mem_cons.mp hm with h1 | h2
      · exact absurd h1 (by decide)
      · have := hd ':' h2
        simp [isDigitChar] at this
    simpa using hnm
  have hne : ('-' :: ds).isEmpty = false := rfl
  simp only [parseTimeToSecondsL, hne, Bool.false_eq_true, if_false, htrim, hnocolon,
    jsParseInt_neg_digits h hd]
  rw [if_pos (by omega)]

end Swimset

namespace Swimset

theorem parseTimeL_bare_none {cs : List Char} (hnc : (jsTrim cs).contains ':' = false)
    (hpi : jsParseInt (jsTrim cs) = none) : parseTimeToSecondsL cs = none := by
  rw [parseTimeToSecondsL]
  by_cases he : cs.isEmpty = true
  · rw [if_pos he]
  · rw [if_neg he]
    by_cases ht : (jsTrim cs).isEmpty = true
    · rw [if_pos ht]
    · rw [if_neg ht,
        if_neg (fun hcon => by rw [hnc] at hcon; exact Bool.false_ne_true hcon), hpi]

/-- C4 (counterexample): the claim says every input that is neither a
`minutes:seconds` literal nor a bare nonnegative integer yields `noValue`,
but `parseInt` keeps the leading digit run, so `"45abc"` — which has
neither accepted shape — parses to 45. -/
theorem C4_time_parse_counterexample :
    parseTimeToSeconds ("45abc") = some 45 ∧ ¬ bareIntShape ("45abc") ∧
      ¬ minSecShape ("45abc") := by
  refine ⟨by decide, ?_, ?_⟩
  · simp only [bareIntShape]
    decide
  rintro ⟨ms, ss, hm, hs, hdm, hds, h59, heq⟩
  have hmem : ':' ∈ ("45abc").toList := by
    rw [heq]
    simp
  exact absurd hmem (by decide)

/-- C4 (amended): the time codec's parse reads each component with JS
`parseInt` semantics — longest leading digit run after an optional sign,
trailing characters ignored. A two-part `minutes:seconds` input with
parsed seconds 0–59 returns `60*minutes+seconds`; a colon-free input with
a nonnegative integer prefix returns that integer (so `"45abc"` gives
45); two or more colons, a negative leading integer, or no integer prefix
give `noValue`. The claim's concrete examples all hold. -/
theorem C4_time_parse_amended :
    (parseTimeToSeconds ("1:40") = some 100 ∧ parseTimeToSeconds ("0:45") = some 45 ∧
      parseTimeToSeconds ("45") = some 45 ∧ parseTimeToSeconds ("1:65") = none ∧
      parseTimeToSeconds ("abc") = none ∧ parseTimeToSeconds ("45abc") = some 45) ∧
    (∀ ds : List Char, ds ≠ [] → (∀ c ∈ ds, isDigitChar c = true) →
      parseTimeToSeconds (String.mk ds) = some (natOfDigits ds)) ∧
    (∀ ms ss : List Char, ms ≠ [] → ss ≠ [] → (∀ c ∈ ms, isDigitChar c = true) →
      (∀ c ∈ ss, isDigitChar c = true) →
      parseTimeToSeconds (String.mk (ms ++ ':' :: ss))
        = if 60 ≤ natOfDigits ss then none
          else some (natOfDigits ms * 60 + natOfDigits ss)) ∧
    (∀ s : String, 2 ≤ s.toList.count ':' → parseTimeToSeconds s = none) ∧
    (∀ ds : List Char, ds ≠ [] → (∀ c ∈ ds, isDigitChar c = true) → natOfDigits ds ≠ 0 →
      parseTimeToSeconds (String.mk ('-' :: ds)) = none) ∧
    (∀ s : String, (jsTrim s.toList).contains ':' = false →
      jsParseInt (jsTrim s.toList) = none → parseTimeToSeconds s = none) := by
  refine ⟨by decide, ?_, ?_, ?_, ?_, ?_⟩
  · exact fun ds h hd => parseTimeL_digits h hd
  · exact fun ms ss hm hs hdm hds => parseTimeL_minsec hm hs hdm hds
  · exact fun s h => parseTimeL_multicolon h
  · exact fun ds h hd hv => parseTimeL_neg_bare h hd hv
  · exact fun s hnc hpi => parseTimeL_bare_none hnc hpi

/-- C4 (witness): the amended theorem applied at the bare integer `"45"`
and the minutes:seconds literal `"1:40"`. -/
theorem C4_time_parse_amended_witness :
    parseTimeToSeconds (String.mk ['4', '5']) = some (natOfDigits ['4', '5']) ∧
      parseTimeToSeconds (String.mk (['1'] ++ ':' :: ['4', '0']))
        = if 60 ≤ natOfDigits ['4', '0'] then none
          else some (natOfDigits ['1'] * 60 + natOfDigits ['4', '0']) :=
  ⟨C4_time_parse_amended.2.1 ['4', '5'] (by decide) (by decide),
   C4_time_parse_amended.2.2.1 ['1'] ['4', '0'] (by decide) (by decide) (by decide) (by decide)⟩

end Swimset

namespace Swimset

theorem natOfDigits_cons_zero (cs : List Char) : natOfDigits ('0' :: cs) = natOfDigits cs := by
  have h0 : digitVal '0' = 0 := by decide
  simp [natOfDigits, h0]

theorem natOfDigits_replicate_zero (k : Nat) (cs : List Char) :
    natOfDigits (List.replicate k '0' ++ cs) = natOfDigits cs := by
  induction k with
  | zero => simp
  | succ k ih =>
    rw [List.replicate_succ, List.cons_append, natOfDigits_cons_zero, ih]

theorem natOfDigits_pad2 (cs : List Char) : natOfDigits (pad2 cs) = natOfDigits cs := by
  unfold pad2
  split
  · exact natOfDigits_replicate_zero _ cs
  · rfl

theorem pad2_ne_nil {cs : List Char} (h : cs ≠ []) : pad2 cs ≠ [] := by
  unfold pad2
  split
  · simp [h]
  · exact h

theorem pad2_all_digits {cs : List Char} (h : ∀ c ∈ cs, isDigitChar c = true) :
    ∀ c ∈ pad2 cs, isDigitChar c = true := by
  unfold pad2
  split
  · intro c hc
    rcases List.mem_append.mp hc with h1 | h2
    · have := List.eq_of_mem_replicate h1
      subst this
      decide
    · exact h c h2
  · exact h

theorem jsRound_intCast (z : ℤ) : jsRound ((z : ℚ)) = z := by
  rw [jsRound, Int.floor_eq_iff]
  constructor
  · linarith
  · linarith

theorem jsRound_natCast (n : Nat) : jsRound ((n : ℚ)) = (n : ℤ) := by
  have := jsRound_intCast ((n : ℤ))
  rwa [Int.cast_natCast] at this

/-- C5: round-trip of the time codec — every canonically formatted string
(an output of `format`) parses back to a whole number of seconds that
formats to the same string; `format` rounds its argument to the nearest
whole second (half up), so formatting `q` and formatting `round q` agree;
and `format 100 = "1:40"`, `format 45 = "0:45"`. -/
theorem C5_format_parse_roundtrip :
    (∀ (q : ℚ) (str : String), formatSecondsAsTime q = some str →
      ∃ n : Nat, parseTimeToSeconds str = some n ∧
        formatSecondsAsTime ((n : ℚ)) = some str) ∧
    (∀ q : ℚ, 0 ≤ q → formatSecondsAsTime q = formatSecondsAsTime ((jsRound q : ℚ))) ∧
    formatSecondsAsTime 100 = some ("1:40") ∧ formatSecondsAsTime 45 = some ("0:45") := by
  refine ⟨?_, ?_, by decide, by decide⟩
  · intro q str h
    rw [formatSecondsAsTime] at h
    by_cases hq : q < 0
    · rw [if_pos hq] at h
      exact absurd h (by simp)
    · rw [if_neg hq] at h
      have hstr : str = String.mk (showNatL ((jsRound q).toNat / 60) ++ ':' ::
          pad2 (showNatL ((jsRound q).toNat % 60))) := by
        injection h with h'
        exact h'.symm
      subst hstr
      refine ⟨(jsRound q).toNat, ?_, ?_⟩
      · have hms : showNatL ((jsRound q).toNat / 60) ≠ [] := showNatL_ne_nil _
        have hss : pad2 (showNatL ((jsRound q).toNat % 60)) ≠ [] :=
          pad2_ne_nil (showNatL_ne_nil _)
        have hdm := showNatL_all_digits ((jsRound q).toNat / 60)
        have hds : ∀ c ∈ pad2 (showNatL ((jsRound q).toNat % 60)), isDigitChar c = true :=
          pad2_all_digits (showNatL_all_digits _)
        have hkey := parseTimeL_minsec hms hss hdm hds
        rw [natOfDigits_pad2, natOfDigits_showNatL, natOfDigits_showNatL] at hkey
        rw [if_neg (by omega)] at hkey
        show parseTimeToSecondsL (showNatL ((jsRound q).toNat / 60) ++ ':' ::
          pad2 (showNatL ((jsRound q).toNat % 60))) = some (jsRound q).toNat
        rw [hkey]
        congr 1
        omega
      · rw [formatSecondsAsTime,
          if_neg (not_lt.mpr (show (0 : ℚ) ≤ ((jsRound q).toNat : ℚ) by positivity)),
          jsRound_natCast]
        rw [Int.toNat_natCast]
  · intro q hq
    have h1 : ¬ (q < 0) := not_lt.mpr hq
    have hr0 : (0 : ℤ) ≤ jsRound q := by
      rw [jsRound]
      refine Int.le_floor.mpr ?_
      have hhalf : (0 : ℚ) ≤ q + 1 / 2 := by linarith
      exact_mod_cast hhalf
    have h2 : ¬ (((jsRound q : ℤ) : ℚ) < 0) := not_lt.mpr (by exact_mod_cast hr0)
    rw [formatSecondsAsTime, formatSecondsAsTime, if_neg h1, if_neg h2, jsRound_intCast]

/-- C5 (witness): the round-trip at the canonical string `"1:40"`
(produced by `format 100`) and the rounding property at `q = 3/2`. -/
theorem C5_format_parse_roundtrip_witness :
    (∃ n : Nat, parseTimeToSeconds ("1:40") = some n ∧
      formatSecondsAsTime ((n : ℚ)) = some ("1:40")) ∧
    formatSecondsAsTime ((3 : ℚ) / 2) = formatSecondsAsTime ((jsRound ((3 : ℚ) / 2) : ℚ)) :=
  ⟨C5_format_parse_roundtrip.1 100 ("1:40") (by decide),
   C5_format_parse_roundtrip.2.1 ((3 : ℚ) / 2) (by norm_num)⟩

end Swimset

namespace Swimset

theorem sumValues_cons (kv : String × Nat) (l : List (String × Nat)) :
    sumValues (kv :: l) = kv.2 + sumValues l := by
  simp [sumValues]

theorem sumValues_bump (l : List (String × Nat)) (k : String) (v : Nat) :
    sumValues (bump l k v) = sumValues l + v := by
  induction l with
  | nil => simp [bump, sumValues]
  | cons kv rest ih =>
    obtain ⟨k', v'⟩ := kv
    by_cases h : k' = k
    · simp only [bump, if_pos h, sumValues_cons]
      omega
    · simp only [bump, if_neg h, sumValues_cons, ih]
      omega

theorem lookupD_bump (l : List (String × Nat)) (k : String) (v : Nat) (k' : String) :
    lookupD (bump l k v) k' = lookupD l k' + (if k = k' then v else 0) := by
  induction l with
  | nil =>
    by_cases h : k = k' <;> simp [bump, lookupD, h]
  | cons kv rest ih =>
    obtain ⟨k0, v0⟩ := kv
    by_cases hk : k0 = k
    · subst hk
      by_cases h1 : k0 = k'
      · simp [bump, lookupD, h1]
      · simp [bump, lookupD, h1]
    · by_cases h1 : k0 = k'
      · have hkk : ¬ (k = k') := fun he => hk (by rw [he, h1])
        have hk'k : ¬ (k' = k) := fun he => hkk he.symm
        simp [bump, hk, lookupD, h1, hkk, hk'k]
      · simp [bump, hk, lookupD, h1, ih]

theorem totalsFoldSpec (sets : List SetInterval) :
    ∀ acc : Nat × List (String × Nat) × List (String × Nat),
      ((sets.foldl
          (fun (acc : Nat × List (String × Nat) × List (String × Nat)) s =>
            let distanceForSet := s.reps * s.distanceMeters
            (acc.1 + distanceForSet, bump acc.2.1 s.sectionName distanceForSet,
              bump acc.2.2 (s.intensity.getD ("unknown")) distanceForSet)) acc).1
        = acc.1 + ((sets.map fun s => s.reps * s.distanceMeters)).sum) ∧
      (sumValues (sets.foldl
          (fun (acc : Nat × List (String × Nat) × List (String × Nat)) s =>
            let distanceForSet := s.reps * s.distanceMeters
            (acc.1 + distanceForSet, bump acc.2.1 s.sectionName distanceForSet,
              bump acc.2.2 (s.intensity.getD ("unknown")) distanceForSet)) acc).2.1
        = sumValues acc.2.1 + ((sets.map fun s => s.reps * s.distanceMeters)).sum) ∧
      (sumValues (sets.foldl
          (fun (acc : Nat × List (String × Nat) × List (String × Nat)) s =>
            let distanceForSet := s.reps * s.distanceMeters
            (acc.1 + distanceForSet, bump acc.2.1 s.sectionName distanceForSet,
              bump acc.2.2 (s.intensity.getD ("unknown")) distanceForSet)) acc).2.2
        = sumValues acc.2.2 + ((sets.map fun s => s.reps * s.distanceMeters)).sum) ∧
      (∀ k : String, lookupD (sets.foldl
          (fun (acc : Nat × List (String × Nat) × List (String × Nat)) s =>
            let distanceForSet := s.reps * s.distanceMeters
            (acc.1 + distanceForSet, bump acc.2.1 s.sectionName distanceForSet,
              bump acc.2.2 (s.intensity.getD ("unknown")) distanceForSet)) acc).2.2 k
        = lookupD acc.2.2 k +
          (((sets.filter fun s => s.intensity.getD ("unknown") = k).map
            fun s => s.reps * s.distanceMeters)).sum) := by
  induction sets with
  | nil => intro acc; simp
  | cons s rest ih =>
    intro acc
    obtain ⟨ih1, ih2, ih3, ih4⟩ := ih
      ((acc.1 + s.reps * s.distanceMeters,
        bump acc.2.1 s.sectionName (s.reps * s.distanceMeters),
        bump acc.2.2 (s.intensity.getD ("unknown")) (s.reps * s.distanceMeters)))
    refine ⟨?_, ?_, ?_, ?_⟩
    · rw [List.foldl_cons]
      rw [ih1]
      simp
      omega
    · rw [List.foldl_cons]
      rw [ih2]
      simp [sumValues_bump]
      omega
    · rw [List.foldl_cons]
      rw [ih3]
      simp [sumValues_bump]
      omega
    · intro k
      rw [List.foldl_cons]
      rw [ih4 k]
      simp only [lookupD_bump, List.filter_cons]
      by_cases hk : s.intensity.getD ("unknown") = k
      · simp [hk]
        omega
      · simp [hk]

theorem computeTotals_spec (sets : List SetInterval) :
    (computeTotals sets).totalDistanceMeters
        = ((sets.map fun s => s.reps * s.distanceMeters)).sum ∧
    sumValues (computeTotals sets).distanceBySection
        = (computeTotals sets).totalDistanceMeters ∧
    sumValues (computeTotals sets).distanceByIntensity
        = (computeTotals sets).totalDistanceMeters ∧
    ∀ k : String, lookupD (computeTotals sets).distanceByIntensity k
        = (((sets.filter fun s => s.intensity.getD ("unknown") = k).map
            fun s => s.reps * s.distanceMeters)).sum := by
  obtain ⟨h1, h2, h3, h4⟩ := totalsFoldSpec sets (0, [], [])
  refine ⟨?_, ?_, ?_, ?_⟩
  · show (sets.foldl _ (0, [], [])).1 = _
    rw [h1]
    simp
  · show sumValues (sets.foldl _ (0, [], [])).2.1 = (sets.foldl _ (0, [], [])).1
    rw [h1, h2]
    simp [sumValues]
  · show sumValues (sets.foldl _ (0, [], [])).2.2 = (sets.foldl _ (0, [], [])).1
    rw [h1, h3]
    simp [sumValues]
  · intro k
    show lookupD (sets.foldl _ (0, [], [])).2.2 k = _
    rw [h4 k]
    simp [lookupD]

/-- C2: for every input text the interpreter's totals are internally
consistent — `totalDistanceMeters` is the sum over sets of
`reps * distanceMeters`, the per-section and per-intensity breakdowns
both sum to the same total, and each intensity bucket (with absent
intensity mapped to `unknown`) holds exactly the distance of its sets. -/
theorem C2_totals_internally_consistent (text : String) :
    (interpretShorthand text).totals.totalDistanceMeters
        = (((interpretShorthand text).sets.map fun s => s.reps * s.distanceMeters)).sum ∧
    sumValues (interpretShorthand text).totals.distanceBySection
        = (interpretShorthand text).totals.totalDistanceMeters ∧
    sumValues (interpretShorthand text).totals.distanceByIntensity
        = (interpretShorthand text).totals.totalDistanceMeters ∧
    ∀ k : String, lookupD (interpretShorthand text).totals.distanceByIntensity k
        = ((((interpretShorthand text).sets.filter
              fun s => s.intensity.getD ("unknown") = k).map
            fun s => s.reps * s.distanceMeters)).sum := by
  obtain ⟨h1, h2, h3, h4⟩ := computeTotals_spec (interpretShorthand text).sets
  exact ⟨h1, h2, h3, h4⟩

end Swimset

namespace Swimset

theorem sendOffFold (l : List SetInterval) :
    ∀ a : Nat, l.foldl (fun acc s => acc + s.reps * s.sendOffSeconds.getD 0) a
      = a + (l.map fun s => s.reps * s.sendOffSeconds.getD 0).sum := by
  induction l with
  | nil => intro a; simp
  | cons s rest ih =>
    intro a
    rw [List.foldl_cons, ih]
    simp
    omega

theorem halfCondition (sets : List SetInterval) :
    ((sets.length : ℚ) / 2 ≤ ((sets.filter fun s => s.sendOffSeconds.isSome).length : ℚ)) ↔
      sets.length ≤ 2 * (sets.filter fun s => s.sendOffSeconds.isSome).length := by
  rw [div_le_iff₀ (by norm_num : (0 : ℚ) < 2)]
  norm_cast
  omega

/-- C3: the duration estimate policy — with at least half the sets
carrying a send-off (real-valued comparison, `n ≤ 2k`), the estimate is
the send-off sum over exactly those sets divided by 60; otherwise
positive total distance is estimated at 90 seconds per 100 meters; no
sets means no estimate; and `"4x50 FR @1:00"` alone estimates 4 minutes. -/
theorem C3_estimate_duration_policy :
    (∀ (sets : List SetInterval) (total : Nat), sets ≠ [] →
      sets.length ≤ 2 * (sets.filter fun s => s.sendOffSeconds.isSome).length →
      estimateDurationMinutes sets total
        = some ((((((sets.filter fun s => s.sendOffSeconds.isSome).map
            fun s => s.reps * s.sendOffSeconds.getD 0).sum : ℕ) : ℚ)) / 60)) ∧
    (∀ (sets : List SetInterval) (total : Nat), sets ≠ [] →
      2 * (sets.filter fun s => s.sendOffSeconds.isSome).length < sets.length →
      0 < total →
      estimateDurationMinutes sets total = some (((total : ℚ) / 100) * 90 / 60)) ∧
    (∀ total : Nat, estimateDurationMinutes [] total = none) ∧
    (interpretShorthand ("4x50 FR @1:00")).totals.estimatedMinutes = some 4 := by
  refine ⟨?_, ?_, fun total => rfl, by decide⟩
  · intro sets total hne hcase
    have hempty : sets.isEmpty = false := by
      cases sets with
      | nil => exact absurd rfl hne
      | cons a t => rfl
    simp only [estimateDurationMinutes, hempty, Bool.false_eq_true, if_false]
    rw [if_pos ((halfCondition sets).mpr hcase), sendOffFold]
    rw [Nat.zero_add]
  · intro sets total hne hcase htotal
    have hempty : sets.isEmpty = false := by
      cases sets with
      | nil => exact absurd rfl hne
      | cons a t => rfl
    simp only [estimateDurationMinutes, hempty, Bool.false_eq_true, if_false]
    rw [if_neg (fun hc => by
        have hle := (halfCondition sets).mp hc
        omega),
      if_neg (by omega)]

/-- C3 (witness): the send-off branch applied at the single parsed set of
`"4x50 FR @1:00"` with total distance 200. -/
theorem C3_estimate_duration_policy_witness :
    estimateDurationMinutes
        [⟨("main"), 4, 50, ("FR"), some 60, none, ("4x50 FR @1:00"), 1⟩] 200
      = some ((((((([⟨("main"), 4, 50, ("FR"), some 60, none, ("4x50 FR @1:00"), 1⟩] :
            List SetInterval).filter fun s => s.sendOffSeconds.isSome).map
            fun s => s.reps * s.sendOffSeconds.getD 0).sum : ℕ) : ℚ)) / 60) :=
  C3_estimate_duration_policy.1
    [⟨("main"), 4, 50, ("FR"), some 60, none, ("4x50 FR @1:00"), 1⟩] 200
    (by decide) (by decide)

end Swimset

namespace Swimset

theorem interpret_warnings_eq (text : String) :
    (interpretShorthand text).warnings
      = warningsOf (interpretShorthand text).header.plannedDurationMinutes
          (interpretShorthand text).totals.estimatedMinutes := rfl

/-- C6: with a planned duration `p` and an estimate `e` both present,
exactly one warning is emitted iff `|e - p| > 10` (strict); the warning
states whether the estimate exceeds or falls short of the plan and
carries both values and the difference to one decimal place; planned 30
with estimate 45 warns, planned 30 with estimate 35 does not. -/
theorem C6_variance_warning (text : String) (p : Nat) (e : ℚ)
    (hp : (interpretShorthand text).header.plannedDurationMinutes = some p)
    (he : (interpretShorthand text).totals.estimatedMinutes = some e) :
    ((interpretShorthand text).warnings.length = 1 ↔ 10 < |e - (p : ℚ)|) ∧
    ((interpretShorthand text).warnings = [] ↔ |e - (p : ℚ)| ≤ 10) ∧
    (10 < |e - (p : ℚ)| → (p : ℚ) < e →
      (interpretShorthand text).warnings = [overMessage e p (|e - (p : ℚ)|)]) ∧
    (10 < |e - (p : ℚ)| → e < (p : ℚ) →
      (interpretShorthand text).warnings = [underMessage e p (|e - (p : ℚ)|)]) ∧
    ((interpretShorthand ("duration 30\n30x100 FR @1:30")).warnings
      = [overMessage 45 30 15] ∧
     overMessage 45 30 15 = ("Estimated duration (~45.0 min) exceeds planned duration (30 min) by about 15.0 min.") ∧
     (interpretShorthand ("duration 30\n14x100 FR @2:30")).warnings = []) := by
  rw [interpret_warnings_eq, hp, he]
  simp only [warningsOf]
  refine ⟨?_, ?_, ?_, ?_, by decide, by decide, by decide⟩
  · by_cases h10 : 10 < |e - (p : ℚ)|
    · rw [if_pos h10]
      by_cases hd : 0 < e - (p : ℚ)
      · simp [hd, h10]
      · simp [hd, h10]
    · rw [if_neg h10]
      simp [h10]
  · by_cases h10 : 10 < |e - (p : ℚ)|
    · rw [if_pos h10]
      by_cases hd : 0 < e - (p : ℚ)
      · simp only [if_pos hd]
        constructor
        · intro hcon
          exact absurd hcon (by simp)
        · intro hle
          linarith
      · simp only [if_neg hd]
        constructor
        · intro hcon
          exact absurd hcon (by simp)
        · intro hle
          linarith
    · rw [if_neg h10]
      simp
      linarith [not_lt.mp h10]
  · intro h10 hpe
    rw [if_pos h10, if_pos (by linarith)]
  · intro h10 hep
    rw [if_pos h10, if_neg (by linarith)]

/-- C6 (witness): the iff applied at the concrete input with planned 30
and estimate 45 (difference 15 > 10 emits exactly one warning). -/
theorem C6_variance_warning_witness :
    (interpretShorthand ("duration 30\n30x100 FR @1:30")).warnings.length = 1 :=
  ((C6_variance_warning ("duration 30\n30x100 FR @1:30") 30 45 (by decide) (by decide)).1).mpr
    (by rw [show |(45 : ℚ) - ((30 : Nat) : ℚ)| = 15 by norm_num]; norm_num)

end Swimset

namespace Swimset

/-- C8: the generator's target distance — a positive
`targetDistanceMeters` is honored, otherwise the template's nominal total
is scaled by the profile factor (novice ×0.75, intermediate ×1.0, elite
×1.25, rounded); either way the result is clamped to [1500, 6000]. -/
theorem C8_choose_target_distance (goal : GenerateConstraints) (baseTotal : Nat) :
    (∀ t : Int, goal.targetDistanceMeters = some t → 0 < t →
      chooseTargetDistance goal baseTotal = max 1500 (min 6000 t)) ∧
    ((goal.targetDistanceMeters = none ∨
        ∃ t : Int, goal.targetDistanceMeters = some t ∧ t ≤ 0) →
      chooseTargetDistance goal baseTotal
        = max 1500 (min 6000 (jsRound ((baseTotal : ℚ) * profileFactor goal.profile)))) ∧
    (profileFactor Profile.novice = 3 / 4 ∧ profileFactor Profile.intermediate = 1 ∧
      profileFactor Profile.elite = 5 / 4) ∧
    (1500 ≤ chooseTargetDistance goal baseTotal ∧
      chooseTargetDistance goal baseTotal ≤ 6000) := by
  refine ⟨?_, ?_, ⟨rfl, rfl, rfl⟩, ?_, ?_⟩
  · intro t ht hpos
    simp only [chooseTargetDistance, ht, clamp]
    rw [if_neg (by omega)]
  · intro hcase
    rcases hcase with hnone | ⟨t, ht, hle⟩
    · simp only [chooseTargetDistance, hnone, clamp]
    · simp only [chooseTargetDistance, ht, clamp]
      rw [if_pos hle]
  · simp only [chooseTargetDistance, clamp]
    exact le_max_left _ _
  · simp only [chooseTargetDistance, clamp]
    rw [max_le_iff]
    exact ⟨by omega, min_le_left _ _⟩

/-- C8 (witness): an explicit positive target of 7000 is clamped to
6000, and the profile-scaled branch at an absent target. -/
theorem C8_choose_target_distance_witness :
    chooseTargetDistance
        ⟨25, some 7000, none, Focus.threshold, Profile.intermediate, none⟩ 3200
      = max 1500 (min 6000 7000) ∧
    chooseTargetDistance
        ⟨25, none, none, Focus.threshold, Profile.intermediate, none⟩ 3200
      = max 1500 (min 6000 (jsRound ((3200 : ℚ) * profileFactor Profile.intermediate))) :=
  ⟨(C8_choose_target_distance
      ⟨25, some 7000, none, Focus.threshold, Profile.intermediate, none⟩ 3200).1
      7000 rfl (by norm_num),
   (C8_choose_target_distance
      ⟨25, none, none, Focus.threshold, Profile.intermediate, none⟩ 3200).2.1
      (Or.inl rfl)⟩

end Swimset

namespace Swimset

theorem mem_ite_singleton {α : Type} {c : Prop} [Decidable c] {x e : α}
    (h : e ∈ (if c then [x] else [])) : e = x := by
  split at h
  · simpa using h
  · simp at h

theorem parseSetLine_errors_lineNumber (t : List Char) (sec : String) (n : Nat) :
    ∀ e ∈ (parseSetLine t sec n).2, e.lineNumber = n := by
  intro e he
  cases hm : matchSetLine t with
  | none =>
    simp only [parseSetLine, hm] at he
    rw [List.mem_singleton] at he
    rw [he]
  | some m =>
    simp only [parseSetLine, hm] at he
    rcases List.mem_append.mp he with h12 | h3
    · rcases List.mem_append.mp h12 with h1 | h2
      · have hx := mem_ite_singleton h1
        subst hx
        rfl
      · have hx := mem_ite_singleton h2
        subst hx
        rfl
    · cases htt : m.timeTok with
      | none =>
        simp only [htt] at h3
        simp at h3
      | some tt =>
        simp only [htt] at h3
        cases hpt : parseTimeToSecondsL tt with
        | none =>
          simp only [hpt] at h3
          rw [List.mem_singleton] at h3
          rw [h3]
        | some v =>
          simp only [hpt] at h3
          simp at h3

theorem handleHeaderLine_errors_lineNumber (t : List Char) (hh : WorkoutHeader) (n : Nat)
    (res : WorkoutHeader × List ParseError) (hres : handleHeaderLine t hh n = some res) :
    ∀ e ∈ res.2, e.lineNumber = n := by
  intro e he
  unfold handleHeaderLine at hres
  cases htok : wsTokens t with
  | nil =>
    rw [htok] at hres
    simp at hres
  | cons f r =>
    rw [htok] at hres
    simp only [] at hres
    by_cases h1 : jsToLower f = ("pool").toList
    · rw [if_pos h1] at hres
      cases hx : extractInteger (if (joinSpace r).isEmpty then f else joinSpace r) <;>
        simp only [hx, Option.some_inj] at hres <;> rw [← hres] at he
      · rw [List.mem_singleton] at he
        rw [he]
      · simp at he
    · rw [if_neg h1] at hres
      by_cases h2 : jsToLower f = ("duration").toList
      · rw [if_pos h2] at hres
        cases hx : extractInteger (joinSpace r) <;>
          simp only [hx, Option.some_inj] at hres <;> rw [← hres] at he
        · rw [List.mem_singleton] at he
          rw [he]
        · simp at he
      · rw [if_neg h2] at hres
        by_cases h3 : jsToLower f = ("title").toList
        · rw [if_pos h3, Option.some_inj] at hres
          rw [← hres] at he
          simp at he
        · rw [if_neg h3] at hres
          by_cases h4 : jsToLower f = ("focus").toList
          · rw [if_pos h4, Option.some_inj] at hres
            rw [← hres] at he
            simp at he
          · rw [if_neg h4] at hres
            by_cases h5 : jsToLower f = ("profile").toList
            · rw [if_pos h5, Option.some_inj] at hres
              rw [← hres] at he
              simp at he
            · rw [if_neg h5] at hres
              exact absurd hres (by simp)

theorem handleHeaderLine_none_congr {t : List Char} {hh1 : WorkoutHeader} {n1 : Nat}
    (hnone : handleHeaderLine t hh1 n1 = none) (hh2 : WorkoutHeader) (n2 : Nat) :
    handleHeaderLine t hh2 n2 = none := by
  unfold handleHeaderLine at hnone ⊢
  cases htok : wsTokens t with
  | nil => rfl
  | cons f r =>
    rw [htok] at hnone
    simp only [] at hnone ⊢
    by_cases h1 : jsToLower f = ("pool").toList
    · rw [if_pos h1] at hnone
      exfalso
      simp only [List.isEmpty_eq_true] at hnone
      cases hx : extractInteger (if joinSpace r = [] then f else joinSpace r) <;>
        simp [hx] at hnone
    · rw [if_neg h1] at hnone ⊢
      by_cases h2 : jsToLower f = ("duration").toList
      · rw [if_pos h2] at hnone
        exfalso
        cases hx : extractInteger (joinSpace r) <;> simp [hx] at hnone
      · rw [if_neg h2] at hnone ⊢
        by_cases h3 : jsToLower f = ("title").toList
        · rw [if_pos h3] at hnone
          exact absurd hnone (by simp)
        · rw [if_neg h3] at hnone ⊢
          by_cases h4 : jsToLower f = ("focus").toList
          · rw [if_pos h4] at hnone
            exact absurd hnone (by simp)
          · rw [if_neg h4] at hnone ⊢
            by_cases h5 : jsToLower f = ("profile").toList
            · rw [if_pos h5] at hnone
              exact absurd hnone (by simp)
            · rw [if_neg h5] at hnone ⊢

end Swimset

namespace Swimset

theorem processLine_unrecognized {raw : List Char} (st : InterpState) (n : Nat)
    (hb : unrecognizedLine (jsTrim raw)) :
    processLine st n raw
      = { st with errors := st.errors ++ [⟨n, ("Unrecognized set syntax.")⟩] } := by
  obtain ⟨hne, hhash, hcolon, hheader, hmatch⟩ := hb
  unfold processLine
  rw [if_neg (by simpa using hne), if_neg hhash, if_neg hcolon]
  rw [handleHeaderLine_none_congr hheader st.header n]
  simp only [parseSetLine, hmatch]

theorem processLine_split (st : InterpState) (n : Nat) (raw : List Char) :
    ∃ es ss, (processLine st n raw).errors = st.errors ++ es ∧
      (processLine st n raw).sets = st.sets ++ ss ∧
      (∀ e ∈ es, e.lineNumber = n) ∧ (∀ s ∈ ss, s.lineNumber = n) := by
  unfold processLine
  by_cases hb : (jsTrim raw).isEmpty = true
  · rw [if_pos hb]
    exact ⟨[], [], by simp, by simp, by simp, by simp⟩
  · rw [if_neg hb]
    by_cases hh : (jsTrim raw).head? = some '#'
    · rw [if_pos hh]
      exact ⟨[], [], by simp, by simp, by simp, by simp⟩
    · rw [if_neg hh]
      by_cases hc : (jsTrim raw).getLast? = some ':'
      · rw [if_pos hc]
        by_cases hsec : (jsToLower (jsTrim (jsTrim raw).dropLast)).isEmpty = true
        · rw [if_pos hsec]
          exact ⟨[⟨n, ("Empty section name.")⟩], [], rfl, by simp, by simp, by simp⟩
        · rw [if_neg hsec]
          exact ⟨[], [], by simp, by simp, by simp, by simp⟩
      · rw [if_neg hc]
        cases hhl : handleHeaderLine (jsTrim raw) st.header n with
        | some res =>
          refine ⟨res.2, [], ?_, by simp, handleHeaderLine_errors_lineNumber _ _ _ _ hhl, by simp⟩
          rfl
        | none =>
          cases hps : (parseSetLine (jsTrim raw) st.currentSection n).1 with
          | none =>
            refine ⟨(parseSetLine (jsTrim raw) st.currentSection n).2, [], ?_, ?_,
              parseSetLine_errors_lineNumber _ _ _, by simp⟩
            · rw [show (parseSetLine (jsTrim raw) st.currentSection n)
                  = (none, (parseSetLine (jsTrim raw) st.currentSection n).2) from by
                rw [← hps]]
            · rw [show (parseSetLine (jsTrim raw) st.currentSection n)
                  = (none, (parseSetLine (jsTrim raw) st.currentSection n).2) from by
                rw [← hps]]
              simp
          | some core =>
            refine ⟨(parseSetLine (jsTrim raw) st.currentSection n).2,
              [{ sectionName := core.sectionName, reps := core.reps,
                 distanceMeters := core.distanceMeters, stroke := core.stroke,
                 sendOffSeconds := core.sendOffSeconds, intensity := core.intensity,
                 raw := String.mk raw, lineNumber := n }], ?_, ?_,
              parseSetLine_errors_lineNumber _ _ _, by simp⟩
            · rw [show (parseSetLine (jsTrim raw) st.currentSection n)
                  = (some core, (parseSetLine (jsTrim raw) st.currentSection n).2) from by
                rw [← hps]]
            · rw [show (parseSetLine (jsTrim raw) st.currentSection n)
                  = (some core, (parseSetLine (jsTrim raw) st.currentSection n).2) from by
                rw [← hps]]

end Swimset

namespace Swimset

theorem interpLoop_split (lines : List (List Char)) :
    ∀ (st : InterpState) (n : Nat),
      ∃ es ss, (interpLoop st n lines).errors = st.errors ++ es ∧
        (interpLoop st n lines).sets = st.sets ++ ss ∧
        (∀ e ∈ es, n ≤ e.lineNumber) ∧ (∀ s ∈ ss, n ≤ s.lineNumber) := by
  induction lines with
  | nil =>
    intro st n
    exact ⟨[], [], by simp [interpLoop], by simp [interpLoop], by simp, by simp⟩
  | cons l rest ih =>
    intro st n
    obtain ⟨es1, ss1, he1, hs1, hle1, hls1⟩ := processLine_split st n l
    obtain ⟨es2, ss2, he2, hs2, hle2, hls2⟩ := ih (processLine st n l) (n + 1)
    refine ⟨es1 ++ es2, ss1 ++ ss2, ?_, ?_, ?_, ?_⟩
    · rw [interpLoop, he2, he1, List.append_assoc]
    · rw [interpLoop, hs2, hs1, List.append_assoc]
    · intro e he
      rcases List.mem_append.mp he with h1 | h2
      · rw [hle1 e h1]
      · have := hle2 e h2
        omega
    · intro s hs
      rcases List.mem_append.mp hs with h1 | h2
      · rw [hls1 s h1]
      · have := hls2 s h2
        omega

theorem filter_eq_nil_of_ne {p : ParseError → Prop} [DecidablePred p] {es : List ParseError}
    (h : ∀ e ∈ es, ¬ p e) : es.filter (fun e => decide (p e)) = [] := by
  rw [List.filter_eq_nil_iff]
  intro e he
  simp [h e he]

theorem interpLoop_filter_unrecognized (lines : List (List Char)) :
    ∀ (st : InterpState) (n i : Nat) (hi : i < lines.length),
      unrecognizedLine (jsTrim (lines.get ⟨i, hi⟩)) →
      ((interpLoop st n lines).errors.filter (fun e => e.lineNumber = n + i)
          = st.errors.filter (fun e => e.lineNumber = n + i) ++
            [⟨n + i, ("Unrecognized set syntax.")⟩]) ∧
      ((interpLoop st n lines).sets.filter (fun s => s.lineNumber = n + i)
          = st.sets.filter (fun s => s.lineNumber = n + i)) := by
  induction lines with
  | nil =>
    intro st n i hi
    simp at hi
  | cons l rest ih =>
    intro st n i hi hbad
    cases i with
    | zero =>
      have hbadl : unrecognizedLine (jsTrim l) := by simpa using hbad
      rw [interpLoop, processLine_unrecognized st n hbadl]
      obtain ⟨es, ss, he, hs, hle, hls⟩ := interpLoop_split rest
        { st with errors := st.errors ++ [⟨n, ("Unrecognized set syntax.")⟩] } (n + 1)
      constructor
      · rw [he]
        show ((st.errors ++ ([⟨n, ("Unrecognized set syntax.")⟩] : List ParseError)) ++ es).filter
          (fun e => e.lineNumber = n + 0) = _
        rw [List.filter_append, List.filter_append]
        have hes : es.filter (fun e => e.lineNumber = n + 0) = [] := by
          rw [List.filter_eq_nil_iff]
          intro e hee
          have := hle e hee
          simp
          omega
        have hone : ([⟨n, ("Unrecognized set syntax.")⟩] : List ParseError).filter
            (fun e => e.lineNumber = n + 0) = [⟨n + 0, ("Unrecognized set syntax.")⟩] := by
          simp
        rw [hes, hone, List.append_nil]
      · rw [hs]
        show (st.sets ++ ss).filter _ = _
        rw [List.filter_append]
        have hss : ss.filter (fun s => s.lineNumber = n + 0) = [] := by
          rw [List.filter_eq_nil_iff]
          intro s hss
          have := hls s hss
          simp
          omega
        rw [hss, List.append_nil]
    | succ j =>
      have hbad' : unrecognizedLine (jsTrim (rest.get ⟨j, by
          have := hi
          simpa using this⟩)) := by
        simpa using hbad
      obtain ⟨h1, h2⟩ := ih (processLine st n l) (n + 1) j (by
        have := hi
        simpa using this) hbad'
      obtain ⟨es, ss, he, hs, hle, hls⟩ := processLine_split st n l
      rw [interpLoop]
      have hshift : n + (j + 1) = (n + 1) + j := by omega
      constructor
      · rw [hshift, h1, he, List.filter_append]
        have hes : es.filter (fun e => e.lineNumber = (n + 1) + j) = [] := by
          rw [List.filter_eq_nil_iff]
          intro e hee
          have := hle e hee
          simp
          omega
        rw [hes, List.append_nil]
      · rw [hshift, h2, hs, List.filter_append]
        have hss : ss.filter (fun s => s.lineNumber = (n + 1) + j) = [] := by
          rw [List.filter_eq_nil_iff]
          intro s hsss
          have := hls s hsss
          simp
          omega
        rw [hss, List.append_nil]

end Swimset

namespace Swimset

/-- C7: the interpreter is total (a plain function returning a complete
result for every text, by construction), and every non-blank, non-comment
line that is neither a section header nor a recognised header directive
and fails the set grammar contributes exactly one ParseError carrying its
1-based line number and no SetInterval; e.g. `"this is not a set"`. -/
theorem C7_unrecognized_line_diagnostics (text : String) (i : Nat)
    (hi : i < (splitLinesL text.toList).length)
    (hbad : unrecognizedLine (jsTrim ((splitLinesL text.toList).get ⟨i, hi⟩))) :
    ((interpretShorthand text).errors.filter (fun e => e.lineNumber = i + 1)
        = [⟨i + 1, ("Unrecognized set syntax.")⟩]) ∧
    ((interpretShorthand text).sets.filter (fun s => s.lineNumber = i + 1) = []) ∧
    (interpretShorthand ("this is not a set")).errors
        = [⟨1, ("Unrecognized set syntax.")⟩] ∧
    (interpretShorthand ("this is not a set")).sets = [] := by
  obtain ⟨h1, h2⟩ :=
    interpLoop_filter_unrecognized (splitLinesL text.toList) initState 1 i hi hbad
  have hshift : 1 + i = i + 1 := by omega
  rw [hshift] at h1 h2
  refine ⟨?_, ?_, by decide, by decide⟩
  · show (interpLoop initState 1 (splitLinesL text.toList)).errors.filter _ = _
    rw [h1]
    rfl
  · show (interpLoop initState 1 (splitLinesL text.toList)).sets.filter _ = _
    rw [h2]
    rfl

/-- C7 (witness): the theorem applied to the single-line document
`"this is not a set"` at line index 0. -/
theorem C7_unrecognized_line_diagnostics_witness :
    (interpretShorthand ("this is not a set")).errors.filter
        (fun e => e.lineNumber = 0 + 1) = [⟨0 + 1, ("Unrecognized set syntax.")⟩] :=
  (C7_unrecognized_line_diagnostics ("this is not a set") 0 (by decide) (by
    refine ⟨by decide, by decide, by decide, by decide, by decide⟩)).1

end Swimset

namespace Swimset

theorem matchSetLine_head_digit {cs : List Char} {m : SetMatch}
    (h : matchSetLine cs = some m) :
    ∃ c rest, cs = c :: rest ∧ isDigitChar c = true := by
  cases cs with
  | nil =>
    exfalso
    simp [matchSetLine] at h
  | cons c rest =>
    by_cases hd : isDigitChar c = true
    · exact ⟨c, rest, rfl, hd⟩
    · exfalso
      have htw : (c :: rest).takeWhile isDigitChar = [] := by
        rw [List.takeWhile_cons, if_neg (by simp [hd])]
      simp only [matchSetLine, htw] at h
      simp [htw] at h

end Swimset

namespace Swimset

/-- C9: within a line matched by the set grammar, zero reps and zero
distance are clamped to 0 with a ParseError recorded, a send-off token
the time codec rejects records an error with the field left absent, and
in every such case the set is still produced and appended to the sets
list with its raw text and line number. -/
theorem C9_invalid_fields_clamped_set_kept (trimmed : List Char) (sec : String) (n : Nat)
    (m : SetMatch) (hm : matchSetLine trimmed = some m) :
    ∃ core : SetCore,
      (parseSetLine trimmed sec n).1 = some core ∧
      (∀ ds, m.repsStr = some ds → natOfDigits ds = 0 →
        core.reps = 0 ∧
          (⟨n, ("Invalid reps value \"") ++ String.mk ds ++ ("\".")⟩ : ParseError)
            ∈ (parseSetLine trimmed sec n).2) ∧
      (natOfDigits m.distanceStr = 0 →
        core.distanceMeters = 0 ∧
          (⟨n, ("Invalid distance value \"") ++ String.mk m.distanceStr ++ ("\".")⟩ : ParseError)
            ∈ (parseSetLine trimmed sec n).2) ∧
      (∀ tt, m.timeTok = some tt → parseTimeToSecondsL tt = none →
        core.sendOffSeconds = none ∧
          (⟨n, ("Invalid time format \"") ++ String.mk tt ++
            ("\". Expected formats like \"1:40\" or \"45\".")⟩ : ParseError)
            ∈ (parseSetLine trimmed sec n).2) ∧
      (∀ (st : InterpState) (raw : List Char), jsTrim raw = trimmed →
        trimmed.getLast? ≠ some ':' →
        handleHeaderLine trimmed st.header n = none →
        sec = st.currentSection →
        (processLine st n raw).sets = st.sets ++
          [{ sectionName := core.sectionName, reps := core.reps,
             distanceMeters := core.distanceMeters, stroke := core.stroke,
             sendOffSeconds := core.sendOffSeconds, intensity := core.intensity,
             raw := String.mk raw, lineNumber := n }]) := by
  simp only [parseSetLine, hm]
  refine ⟨_, rfl, ?_, ?_, ?_, ?_⟩
  · intro ds hds hzero
    constructor
    · simp only [hds]
      exact hzero
    · apply List.mem_append.mpr
      left
      apply List.mem_append.mpr
      left
      simp [hds, hzero]
  · intro hzero
    constructor
    · exact hzero
    · apply List.mem_append.mpr
      left
      apply List.mem_append.mpr
      right
      simp [hzero]
  · intro tt htt hpt
    constructor
    · simp only [htt, hpt]
    · apply List.mem_append.mpr
      right
      simp only [htt, hpt]
      simp
  · intro st raw htrim hcolon hheader hsec
    obtain ⟨c, crest, hcs, hcdigit⟩ := matchSetLine_head_digit hm
    have hne : trimmed.isEmpty = false := by
      rw [hcs]
      rfl
    have hhash : trimmed.head? ≠ some '#' := by
      rw [hcs]
      simp only [List.head?_cons]
      intro hcon
      rw [Option.some_inj] at hcon
      exact (digit_ne_of_toNat hcdigit (by left; decide)) hcon
    unfold processLine
    rw [htrim]
    rw [if_neg (by simp [hne]), if_neg hhash, if_neg hcolon, hheader]
    simp only [parseSetLine, hm, hsec]

end Swimset

namespace Swimset

/-- C9 (witness): the theorem applied at the matched line `"0x0 FR @bad"`
— zero reps, zero distance, and a rejected send-off token, with the set
still kept. -/
theorem C9_invalid_fields_clamped_set_kept_witness :
    ∃ core : SetCore,
      (parseSetLine (("0x0 FR @bad").toList) ("main") 1).1 = some core ∧
      core.reps = 0 ∧ core.distanceMeters = 0 ∧ core.sendOffSeconds = none := by
  obtain ⟨core, hc, hreps, hdist, htime, happ⟩ :=
    C9_invalid_fields_clamped_set_kept (("0x0 FR @bad").toList) ("main") 1
      ⟨some (['0']), ['0'], ['F', 'R'], some (['b', 'a', 'd']), none⟩ (by decide)
  exact ⟨core, hc, (hreps ['0'] rfl (by decide)).1, (hdist (by decide)).1,
    (htime ['b', 'a', 'd'] rfl (by decide)).1⟩

/-- C10: for the line `"100 @1:30"` — no stroke token before the
`@`-token — the greedy mandatory stroke group captures the `@`-token
itself: the single returned set has stroke `"@1:30"`, no send-off, and
the line produces no ParseError. -/
theorem C10_at_token_as_stroke :
    (interpretShorthand ("100 @1:30")).sets
        = [⟨("main"), 1, 100, ("@1:30"), none, none, ("100 @1:30"), 1⟩] ∧
    (interpretShorthand ("100 @1:30")).errors = [] := by
  constructor
  · decide
  · decide

/-- C1: generating with pool 25, focus threshold, profile intermediate
and no explicit target, then interpreting the generated text, yields no
parse errors, at least one main-section set at intensity `thresh`, and a
total distance inside [1500, 6000] (the concrete value is 3200). -/
theorem C1_generate_threshold_roundtrip :
    (interpretShorthand (generateWorkoutDSL
        { poolLengthMeters := 25, targetDistanceMeters := none,
          targetDurationMinutes := none, focus := Focus.threshold,
          profile := Profile.intermediate, title := none })).errors = [] ∧
    (∃ s ∈ (interpretShorthand (generateWorkoutDSL
        { poolLengthMeters := 25, targetDistanceMeters := none,
          targetDurationMinutes := none, focus := Focus.threshold,
          profile := Profile.intermediate, title := none })).sets,
      s.sectionName = ("main") ∧ s.intensity = some ("thresh")) ∧
    1500 ≤ (interpretShorthand (generateWorkoutDSL
        { poolLengthMeters := 25, targetDistanceMeters := none,
          targetDurationMinutes := none, focus := Focus.threshold,
          profile := Profile.intermediate, title := none })).totals.totalDistanceMeters ∧
    (interpretShorthand (generateWorkoutDSL
        { poolLengthMeters := 25, targetDistanceMeters := none,
          targetDurationMinutes := none, focus := Focus.threshold,
          profile := Profile.intermediate, title := none })).totals.totalDistanceMeters
      ≤ 6000 := by
  refine ⟨by decide, by decide, by decide, by decide⟩

end Swimset
